import Mathlib

/-!
Verification development for the EPUB chapter-content pipeline of
`src/core/epub_loader.py` (class `EpubLoader`): a shallow embedding of the
loader's data model and operations - archive loading, the image index, the
image-rewrite transform, the chapter HTML cache, prefetch scheduling and the
table-of-contents flattener - together with theorems settling the spec's
claims about them.

Modelling conventions:
- Python `bytes` are `List Nat` (each element a byte value).
- Python `dict` is an association list where the most recent write is the
  first binding (`List.lookup` finds the first, i.e. the latest, binding).
- Fallible external calls (`item.get_content()` raising) are `Option`.
- `urllib.parse.unquote` is modelled byte-wise: every valid `%XX` escape
  decodes to the scalar `XX`; this agrees with Python on ASCII data (Python
  additionally UTF-8-decodes consecutive decoded bytes).
-/

/-- Split a character list at every occurrence of `sep`; model of Python
`str.split(sep)` for a one-character separator (no collapsing of empty
fields, `"".split(sep) = [""]`). -/
def splitChar (sep : Char) : List Char → List (List Char)
  | [] => [[]]
  | c :: rest =>
    match splitChar sep rest with
    | [] => [[c]]
    | h :: t => if c == sep then [] :: h :: t else (c :: h) :: t

/-- Model of Python `s.split("/")[-1]` (the text after the last slash). -/
def splitLastSeg (s : String) : String :=
  String.mk ((splitChar '/' s.data).getLastD [])

/-- Model of `os.path.basename` on POSIX: the text after the last `/`.
Coincides with `splitLastSeg`, exactly as in the source where both idioms
appear side by side. -/
def pyBasename (s : String) : String := splitLastSeg s

/-- Value of a hexadecimal digit, as accepted by `urllib.parse.unquote`. -/
def hexVal (c : Char) : Option Nat :=
  if '0' ≤ c ∧ c ≤ '9' then some (c.toNat - '0'.toNat)
  else if 'a' ≤ c ∧ c ≤ 'f' then some (c.toNat - 'a'.toNat + 10)
  else if 'A' ≤ c ∧ c ≤ 'F' then some (c.toNat - 'A'.toNat + 10)
  else none

/-- Byte-wise model of `urllib.parse.unquote`: a `%` followed by two hex
digits decodes to that byte; an invalid escape is kept verbatim (Python
keeps the `%` and rescans the following characters). The `fuel` argument
is a totality device only; it is always called with `fuel ≥ length`. -/
def unquoteAux : Nat → List Char → List Char
  | 0, l => l
  | _, [] => []
  | fuel + 1, c :: rest =>
    if c == '%' then
      match rest with
      | a :: b :: rest2 =>
        match hexVal a, hexVal b with
        | some x, some y => Char.ofNat (16 * x + y) :: unquoteAux fuel rest2
        | _, _ => c :: unquoteAux fuel rest
      | _ => c :: unquoteAux fuel rest
    else c :: unquoteAux fuel rest

/-- Byte-wise model of `urllib.parse.unquote` on character lists. -/
def unquoteChars (l : List Char) : List Char := unquoteAux l.length l

/-- Model of `urllib.parse.unquote` on strings. -/
def pyUnquote (s : String) : String := String.mk (unquoteChars s.data)

/-- Model of Python's substring test `sub in s`. -/
def containsSub (sub : List Char) : List Char → Bool
  | [] => sub.isEmpty
  | c :: t => sub.isPrefixOf (c :: t) || containsSub sub t

/-- Model of Python `str.lower()` (ASCII-faithful). -/
def lowerStr (s : String) : String := String.mk (s.data.map Char.toLower)

/-- Model of `item.get_name().lower().split(".")[-1]`: the lower-cased text
after the last dot (the whole lower-cased name when there is no dot). -/
def extOf (name : String) : String :=
  String.mk ((splitChar '.' (lowerStr name).data).getLastD [])

/-- The loader's fixed extension-to-MIME table `EpubLoader._MIME_TYPES`. -/
def MIME_TYPES : List (String × String) :=
  [("jpg", "image/jpeg"), ("jpeg", "image/jpeg"), ("png", "image/png"),
   ("gif", "image/gif"), ("svg", "image/svg+xml"), ("webp", "image/webp")]

/-- Model of `self._MIME_TYPES.get(ext, "image/jpeg")`. -/
def mimeOf (ext : String) : String :=
  (List.lookup ext MIME_TYPES).getD "image/jpeg"

/-- The base64 alphabet. -/
def b64Alphabet : List Char :=
  "ABCDEFGHIJKLMNOPQRSTUVWXYZabcdefghijklmnopqrstuvwxyz0123456789+/".data

/-- The base64 digit for a 6-bit value. -/
def b64Char (n : Nat) : Char := b64Alphabet.getD n 'A'

/-- Standard base64 encoding of a byte sequence, the model of
`base64.b64encode(data).decode("utf-8")`. -/
def base64Encode : List Nat → List Char
  | [] => []
  | [a] => [b64Char (a / 4), b64Char (a % 4 * 16), '=', '=']
  | [a, b] => [b64Char (a / 4), b64Char (a % 4 * 16 + b / 16), b64Char (b % 16 * 4), '=']
  | a :: b :: c :: rest =>
    b64Char (a / 4) :: b64Char (a % 4 * 16 + b / 16) ::
      b64Char (b % 16 * 4 + c / 64) :: b64Char (c % 64) :: base64Encode rest

/-- Whether a byte is a UTF-8 continuation byte. -/
def utf8Cont (c : Nat) : Bool := decide (0x80 ≤ c ∧ c < 0xC0)

/-- Strict UTF-8 decoding of a byte sequence, the model of
`bytes.decode("utf-8")`: `none` models a raised `UnicodeDecodeError`
(stray continuation bytes, truncated or overlong sequences, surrogates and
out-of-range code points are all rejected). -/
def utf8Decode : List Nat → Option (List Char)
  | [] => some []
  | b :: rest =>
    if b < 0x80 then
      (utf8Decode rest).map (fun cs => Char.ofNat b :: cs)
    else if b < 0xC2 then none
    else if b < 0xE0 then
      match rest with
      | c1 :: rest2 =>
        if utf8Cont c1 then
          (utf8Decode rest2).map (fun cs =>
            Char.ofNat ((b - 0xC0) * 0x40 + (c1 - 0x80)) :: cs)
        else none
      | _ => none
    else if b < 0xF0 then
      match rest with
      | c1 :: c2 :: rest2 =>
        if utf8Cont c1 && utf8Cont c2 then
          let cp := (b - 0xE0) * 0x1000 + (c1 - 0x80) * 0x40 + (c2 - 0x80)
          if cp < 0x800 ∨ (0xD800 ≤ cp ∧ cp < 0xE000) then none
          else (utf8Decode rest2).map (fun cs => Char.ofNat cp :: cs)
        else none
      | _ => none
    else if b < 0xF5 then
      match rest with
      | c1 :: c2 :: c3 :: rest2 =>
        if utf8Cont c1 && utf8Cont c2 && utf8Cont c3 then
          let cp := (b - 0xF0) * 0x40000 + (c1 - 0x80) * 0x1000 +
            (c2 - 0x80) * 0x40 + (c3 - 0x80)
          if cp < 0x10000 ∨ 0x10FFFF < cp then none
          else (utf8Decode rest2).map (fun cs => Char.ofNat cp :: cs)
        else none
      | _ => none
    else none

/-- The `ebooklib` item kinds the loader distinguishes
(`ITEM_DOCUMENT`, `ITEM_IMAGE`, everything else). -/
inductive ItemType where
  | document
  | image
  | other
deriving DecidableEq, Repr

/-- An archive item as the loader sees it: its `get_type()`, its
`get_name()` (archive path) and its `get_content()`; `content = none`
models a `get_content()` call that raises. -/
structure BookItem where
  itemType : ItemType
  name : String
  content : Option (List Nat)
deriving DecidableEq, Repr

/-- One node of the archive's raw navigation structure, as consumed by
`get_flat_toc`'s duck-typed walk: a leaf object whose title/href attribute
extraction yields the recorded optional strings, a nested iterable, or an
item whose processing raises (e.g. attribute access or iteration throwing). -/
inductive NavItem where
  | leaf (titleAttr hrefAttr : Option String)
  | group (children : List NavItem)
  | raises
deriving Repr

/-- An opened `epub.EpubBook`: its items, its `toc` navigation structure
and its `get_metadata("DC", "title")` entries (first components). -/
structure Book where
  items : List BookItem
  toc : List NavItem
  titleMeta : List String

/-- One entry of the flattened table of contents produced by
`get_flat_toc`. -/
structure TocEntry where
  title : String
  level : Nat
  href : Option String
  chapter_idx : Option Nat
deriving DecidableEq, Repr

/-- The `EpubLoader` instance state: `_book`, `_chapters`,
`_chapter_cache`, `_image_index`, `_show_images` and `_chapter_map`.
Dictionaries are association lists whose first matching binding is the
most recent write. -/
structure EpubLoader where
  book : Option Book
  chapters : List BookItem
  chapter_cache : List (Nat × String)
  image_index : List (String × BookItem)
  show_images : Bool
  chapter_map : List (String × Nat)

/-- The state `EpubLoader.__init__` establishes. -/
def EpubLoader.init : EpubLoader :=
  { book := none, chapters := [], chapter_cache := [], image_index := [],
    show_images := true, chapter_map := [] }

/-- The single-quote character, written via its code point. -/
def squote : Char := Char.ofNat 39

/-- Whether a character is one of the two quote characters of the
character class in the loader's image patterns. -/
def isQuoteChar (c : Char) : Bool := c == '"' || c == squote

/-- Whether a character is excluded from the captured/value character
class of the image patterns (a quote or a closing angle bracket). -/
def isValStop (c : Char) : Bool := isQuoteChar c || c == '>'

/-- Build the image index, the model of `_build_image_index`: for every
image item, the item is written under its full name, under
`name.split("/")[-1]` and under `os.path.basename(name)` (later writes
shadow earlier ones, hence the prepend order). -/
def build_image_index (bk : Book) : List (String × BookItem) :=
  bk.items.foldl
    (fun idx it =>
      if it.itemType == ItemType.image then
        (pyBasename it.name, it) :: (splitLastSeg it.name, it) ::
          (it.name, it) :: idx
      else idx)
    []

/-- The image-reference resolution performed inside `_replace_image`:
percent-decode the source, look it up verbatim in the image index, and on
a miss retry with only the text after the last slash
(`self._image_index.get(src_decoded) or
self._image_index.get(src_decoded.split("/")[-1])`). -/
def resolveImage (index : List (String × BookItem)) (src : String) :
    Option BookItem :=
  let srcDecoded := pyUnquote src
  match List.lookup srcDecoded index with
  | some it => some it
  | none => List.lookup (splitLastSeg srcDecoded) index

/-- Attempt to match the inner pattern `src=["\x27][^"\x27>]+["\x27]`
(case-insensitive on `src`) at the head of a character list; on success
return the remainder after the closing quote. -/
def matchSrcAttr : List Char → Option (List Char)
  | c1 :: c2 :: c3 :: c4 :: q :: rest =>
    if c1.toLower == 's' && c2.toLower == 'r' && c3.toLower == 'c' &&
        c4 == '=' && isQuoteChar q then
      let cap := rest.takeWhile (fun ch => !isValStop ch)
      if cap.isEmpty then none
      else
        match rest.drop cap.length with
        | q2 :: rest2 => if isQuoteChar q2 then some rest2 else none
        | [] => none
    else none
  | _ => none

/-- Model of `re.sub` with the inner `src=...` pattern: scan left to
right, replacing every non-overlapping match with `repl`. The `fuel`
argument is a totality device only (always called with
`fuel ≥ length`). -/
def srcAttrSubAux (repl : List Char) : Nat → List Char → List Char
  | 0, cs => cs
  | _ + 1, [] => []
  | fuel + 1, c :: rest =>
    match matchSrcAttr (c :: rest) with
    | some after => repl ++ srcAttrSubAux repl fuel after
    | none => c :: srcAttrSubAux repl fuel rest

/-- The inner substitution of `_replace_image`:
`re.sub(r'src=["\x27][^"\x27>]+["\x27]', repl, tag, flags=re.IGNORECASE)`. -/
def srcAttrSub (repl cs : List Char) : List Char :=
  srcAttrSubAux repl cs.length cs

/-- Whether the tag interior starting at offset `q` carries a valid
source attribute for the outer pattern: at least one character consumed
by `[^>]+` (`q ≥ 1`), then `src=` (case-insensitive), a quote, a
non-empty run of characters outside `["\x27>]`, and a closing quote.
On success, return the captured run. -/
def validSrcAt (interior : List Char) (q : Nat) : Option (List Char) :=
  if q == 0 then none
  else
    match interior.drop q with
    | c1 :: c2 :: c3 :: c4 :: qt :: rest =>
      if c1.toLower == 's' && c2.toLower == 'r' && c3.toLower == 'c' &&
          c4 == '=' && isQuoteChar qt then
        let cap := rest.takeWhile (fun ch => !isValStop ch)
        if cap.isEmpty then none
        else
          match rest.drop cap.length with
          | q2 :: _ => if isQuoteChar q2 then some cap else none
          | [] => none
      else none
    | _ => none

/-- Greedy backtracking of the outer pattern's `[^>]+`: try the largest
offset first, exactly as the regex engine consumes `[^>]+` greedily and
backtracks, so the captured group belongs to the last valid `src=`
occurrence inside the tag. -/
def findSrcDown (interior : List Char) : Nat → Option (List Char)
  | 0 => none
  | q + 1 =>
    match validSrcAt interior (q + 1) with
    | some cap => some cap
    | none => findSrcDown interior q

/-- Attempt to match the outer pattern
`<img[^>]+src=["\x27]([^"\x27>]+)["\x27][^>]*>` (case-insensitive) at the
head of a character list. Since no sub-pattern past `<img` can consume a
`>`, a match always extends to the first `>`; on success return the whole
matched tag, the captured source and the remainder after the tag. -/
def matchImgTag : List Char → Option (List Char × List Char × List Char)
  | c1 :: c2 :: c3 :: c4 :: rest0 =>
    if c1 == '<' && c2.toLower == 'i' && c3.toLower == 'm' &&
        c4.toLower == 'g' then
      let interior := rest0.takeWhile (fun ch => !(ch == '>'))
      match rest0.drop interior.length with
      | [] => none
      | _ :: after =>
        match findSrcDown interior interior.length with
        | none => none
        | some src =>
          some (c1 :: c2 :: c3 :: c4 :: (interior ++ ['>']), src, after)
    else none
  | _ => none

/-- Model of `pattern.sub(self._replace_image, html)` for the outer image
pattern: scan left to right; at a match, emit the per-tag replacement and
continue after the tag; otherwise advance one character. Each match is
processed independently of all others. The `fuel` argument is a totality
device only (always called with `fuel ≥ length`). -/
def imgSubAux (f : List Char → List Char → List Char) :
    Nat → List Char → List Char
  | 0, cs => cs
  | _ + 1, [] => []
  | fuel + 1, c :: rest =>
    match matchImgTag (c :: rest) with
    | some (tag, src, after) => f tag src ++ imgSubAux f fuel after
    | none => c :: imgSubAux f fuel rest

/-- The outer substitution of `_embed_images`. -/
def imgSub (f : List Char → List Char → List Char) (cs : List Char) :
    List Char :=
  imgSubAux f cs.length cs

/-- The placeholder block `_replace_image` emits when images are hidden. -/
def placeholderDiv (filename : String) : String :=
  "<div style=\"border:1px dashed #999;padding:10px;" ++
    "margin:10px 0;text-align:center;color:#666;\">" ++
    "[图片: " ++ filename ++ "]</div>"

/-- The replacement text for the source attribute: a `data:` URI with the
MIME type inferred from the item's name and the base64-encoded payload. -/
def dataUriRepl (item : BookItem) (data : List Nat) : String :=
  "src=\"data:" ++ mimeOf (extOf item.name) ++ ";base64," ++
    String.mk (base64Encode data) ++ "\""

/-- Model of `_replace_image`, the per-match callback: when images are
hidden, the whole tag becomes a placeholder block naming the decoded
basename; otherwise the reference is resolved through the image index and
on success every `src=...` occurrence in the tag is replaced by the
`data:` URI; on resolution failure, or when `item.get_content()` raises
(`content = none`), the original tag is returned unchanged. -/
def replace_image (st : EpubLoader) (tag src : String) : String :=
  if !st.show_images then
    placeholderDiv (pyBasename (pyUnquote src))
  else
    match resolveImage st.image_index src with
    | none => tag
    | some item =>
      match item.content with
      | none => tag
      | some data =>
        String.mk (srcAttrSub (dataUriRepl item data).data tag.data)

/-- Model of `_embed_images`: without a loaded book the HTML is returned
unchanged; otherwise every match of the image pattern is rewritten through
`_replace_image`. -/
def embed_images (st : EpubLoader) (html : String) : String :=
  match st.book with
  | none => html
  | some _ => String.mk (imgSub (fun tag src =>
      (replace_image st (String.mk tag) (String.mk src)).data) html.data)


/-- Model of Python `range(a, b)` over integers. -/
def pyRange (a b : Int) : List Int :=
  (List.range (b - a).toNat).map (fun (n : Nat) => a + (n : Int))

/-- Model of `load_file`: `readResult` is the outcome of
`epub.read_epub(filepath)` (`none` when it raises, with `errMsg` standing
for `str(e)`); later accessor calls on a successfully opened book
(`get_items`, `get_metadata`) are total. On success the whole state is
rebuilt from the new book: the document items become the chapters, the
filename-to-index map is rebuilt, the chapter cache is cleared and the
image index is rebuilt; the visibility flag is not touched. -/
def load_file (st : EpubLoader) (readResult : Option Book)
    (filepath : String) (errMsg : String) : EpubLoader × Bool × String :=
  match readResult with
  | none => (st, false, errMsg)
  | some bk =>
    let chapters := bk.items.filter (fun it => it.itemType == ItemType.document)
    let chapter_map :=
      chapters.enum.foldl (fun m p => (pyBasename p.2.name, p.1) :: m) []
    let title :=
      match bk.titleMeta with
      | [] => pyBasename filepath
      | t :: _ => t
    ({ book := some bk, chapters := chapters, chapter_cache := [],
       image_index := build_image_index bk, show_images := st.show_images,
       chapter_map := chapter_map },
     true, title)

/-- Model of `set_image_visibility`: only when the value actually changes
is the flag updated and the whole chapter cache cleared. -/
def set_image_visibility (st : EpubLoader) (visible : Bool) : EpubLoader :=
  if st.show_images != visible then
    { st with show_images := visible, chapter_cache := [] }
  else st

/-- Model of `get_chapter_content`: out-of-range indices yield `None`;
a cached entry is returned as is; otherwise the chapter's raw bytes are
fetched and UTF-8-decoded (any failure in that `try` block - a raising
`get_content` or a decode error - yields `None` and leaves the state
untouched), the image rewrite is applied, and the result is cached and
returned. -/
def get_chapter_content (st : EpubLoader) (index : Int) :
    EpubLoader × Option String :=
  if 0 ≤ index ∧ index < (st.chapters.length : Int) then
    match List.lookup index.toNat st.chapter_cache with
    | some h => (st, some h)
    | none =>
      match st.chapters.get? index.toNat with
      | none => (st, none)
      | some ch =>
        match ch.content with
        | none => (st, none)
        | some bytes =>
          match utf8Decode bytes with
          | none => (st, none)
          | some chars =>
            let html := embed_images st (String.mk chars)
            ({ st with chapter_cache := (index.toNat, html) :: st.chapter_cache },
             some html)
  else (st, none)

/-- Model of `preload_chapters`' submission set: the indices of
`range(max(0, current - 1), min(len(chapters), current + 2))` that are not
already cached, each submitted to the executor as a `get_chapter_content`
task. -/
def preload_chapters (st : EpubLoader) (current : Int) : List Int :=
  (pyRange (max 0 (current - 1))
      (min (st.chapters.length : Int) (current + 2))).filter
    (fun i => (List.lookup i.toNat st.chapter_cache).isNone)

/-- The effect of the submitted prefetch tasks once they run: each task
invokes `get_chapter_content` and its cache store is kept (sequential
model of the worker pool). -/
def preload_run (st : EpubLoader) (current : Int) : EpubLoader :=
  (preload_chapters st current).foldl
    (fun s i => (get_chapter_content s i).1) st

/-- Model of `chapter_count`. -/
def chapter_count (st : EpubLoader) : Nat := st.chapters.length

/-- Model of `_find_chapter_index`: empty href yields `None`; otherwise
take the basename of the percent-decoded href; return its exact binding
in the chapter map if present; else, when it contains `?`, retry the
exact lookup with the part before the `?`; else scan the chapters in
order for the first whose archive path contains the (unstripped) decoded
basename as a substring. -/
def find_chapter_index (st : EpubLoader) (href : String) : Option Nat :=
  if href == "" then none
  else
    let filename := pyBasename (pyUnquote href)
    match List.lookup filename st.chapter_map with
    | some i => some i
    | none =>
      match
        (if filename.data.contains '?' then
          List.lookup (String.mk ((splitChar '?' filename.data).headD filename.data))
            st.chapter_map
        else none) with
      | some i => some i
      | none =>
        st.chapters.findIdx? (fun ch => containsSub filename.data ch.name.data)

/-- Model of the recursive `process_items` walk inside `get_flat_toc`:
iterables recurse at the same nesting level (the source passes `level`
unchanged), leaf items contribute an entry when a non-empty title was
extracted, and a raising item aborts the walk while keeping the entries
already appended (the shared `flat_toc` list survives the exception).
The Boolean result records whether the walk raised. -/
def walkItems (st : EpubLoader) : List NavItem → Nat → List TocEntry × Bool
  | [], _ => ([], false)
  | NavItem.raises :: _, _ => ([], true)
  | NavItem.group children :: rest, lvl =>
    match walkItems st children lvl with
    | (inner, true) => (inner, true)
    | (inner, false) =>
      match walkItems st rest lvl with
      | (more, r) => (inner ++ more, r)
  | NavItem.leaf titleAttr hrefAttr :: rest, lvl =>
    let here : List TocEntry :=
      match titleAttr with
      | some t =>
        if t == "" then []
        else
          [{ title := t, level := lvl, href := hrefAttr,
             chapter_idx :=
               match hrefAttr with
               | some hs => if hs == "" then none else find_chapter_index st hs
               | none => none }]
      | none => []
    match walkItems st rest lvl with
    | (more, r) => (here ++ more, r)

/-- The default item used to model Python's `self._chapters[i]` indexing
inside the fallback loop (never reached for `i < len(chapters)`). -/
def dfltItem : BookItem := { itemType := ItemType.other, name := "", content := none }

/-- The synthetic fallback TOC built by `get_flat_toc` when the walk
raises: one generically titled level-0 entry per chapter. -/
def syntheticToc (st : EpubLoader) : List TocEntry :=
  (List.range (chapter_count st)).map (fun i =>
    let filename := (st.chapters.getD i dfltItem).name
    { title := "章节 " ++ toString (i + 1) ++ " (" ++ pyBasename filename ++ ")",
      level := 0, href := some filename, chapter_idx := some i })

/-- Model of `get_flat_toc`: nothing without a book; otherwise the walk's
entries, and additionally the synthetic fallback entries appended after
them when the walk raised. -/
def get_flat_toc (st : EpubLoader) : List TocEntry :=
  match st.book with
  | none => []
  | some bk =>
    match walkItems st bk.toc 0 with
    | (entries, raised) =>
      if raised then entries ++ syntheticToc st else entries

/-- Modelled from the claim's words (C8), for comparison with
`find_chapter_index`: strip any query-string suffix from the href's
basename and percent-decode it, then try an exact match against the
chapter map, then a substring match of that same stripped decoded
basename against each chapter's raw archive path, first match in document
order. -/
def find_chapter_index_claimed (st : EpubLoader) (href : String) :
    Option Nat :=
  let base :=
    pyUnquote (String.mk ((splitChar '?' (pyBasename href).data).headD
      (pyBasename href).data))
  match List.lookup base st.chapter_map with
  | some i => some i
  | none =>
    st.chapters.findIdx? (fun ch => containsSub base.data ch.name.data)

/-- The cache-consistency invariant of the pipeline: every cached entry is
exactly the image-rewrite (under the pipeline's current flag, book and
index) of the successfully decoded raw content of the chapter at its key. -/
def cacheConsistent (st : EpubLoader) : Prop :=
  ∀ i h, List.lookup i st.chapter_cache = some h →
    ∃ c bytes chars, st.chapters.get? i = some c ∧ c.content = some bytes ∧
      utf8Decode bytes = some chars ∧ h = embed_images st (String.mk chars)

/-- Image item used by the concrete image-rewrite scenarios. -/
def itemC1 : BookItem :=
  { itemType := ItemType.image, name := "images/pic.png", content := some [1, 2, 3] }

/-- Book holding `itemC1`. -/
def bkC1 : Book := { items := [itemC1], toc := [], titleMeta := [] }

/-- Loader state with `bkC1` loaded and images visible. -/
def stC1 : EpubLoader :=
  { book := some bkC1, chapters := [], chapter_cache := [],
    image_index := build_image_index bkC1, show_images := true,
    chapter_map := [] }

/-- A document chapter whose raw content is not valid UTF-8. -/
def chW3 : BookItem :=
  { itemType := ItemType.document, name := "c1.html", content := some [0xFF] }

/-- Book holding `chW3`. -/
def bkW3 : Book := { items := [chW3], toc := [], titleMeta := ["t"] }

/-- Loader state with `bkW3` loaded. -/
def stW3 : EpubLoader :=
  { book := some bkW3, chapters := [chW3], chapter_cache := [],
    image_index := [], show_images := true,
    chapter_map := [("c1.html", 0)] }

/-- Image item whose archive path contains a space. -/
def itemW4 : BookItem :=
  { itemType := ItemType.image, name := "images/a b.png", content := some [7] }

/-- Book holding `itemW4`. -/
def bkW4 : Book := { items := [itemW4], toc := [], titleMeta := [] }

/-- Loader state with `bkW4` loaded and images visible. -/
def stW4 : EpubLoader :=
  { book := some bkW4, chapters := [], chapter_cache := [],
    image_index := build_image_index bkW4, show_images := true,
    chapter_map := [] }

/-- A plain ASCII document chapter. -/
def chW5 : BookItem :=
  { itemType := ItemType.document, name := "c1.html",
    content := some [60, 112, 62, 104, 105, 60, 47, 112, 62] }

/-- Book holding `chW5`, with empty navigation metadata. -/
def bkW5 : Book := { items := [chW5], toc := [], titleMeta := ["t"] }

/-- Loader state with `bkW5` loaded, cache empty. -/
def stW5 : EpubLoader :=
  { book := some bkW5, chapters := [chW5], chapter_cache := [],
    image_index := [], show_images := true,
    chapter_map := [("c1.html", 0)] }

/-- Book with one chapter whose navigation metadata raises on traversal. -/
def bkW7 : Book := { items := [chW5], toc := [NavItem.raises], titleMeta := ["t"] }

/-- Loader state with `bkW7` loaded. -/
def stW7 : EpubLoader :=
  { book := some bkW7, chapters := [chW5], chapter_cache := [],
    image_index := [], show_images := true,
    chapter_map := [("c1.html", 0)] }

/-- A document chapter under a directory, for the href-resolution
scenarios. -/
def chL8 : BookItem :=
  { itemType := ItemType.document, name := "text/ch1.html", content := some [104] }

/-- Book holding `chL8`. -/
def bkL8 : Book := { items := [chL8], toc := [], titleMeta := [] }

/-- Loader state with `bkL8` loaded (its chapter map binds the basename
`ch1.html` to index 0, exactly as `load_file` builds it). -/
def stL8 : EpubLoader :=
  { book := some bkL8, chapters := [chL8], chapter_cache := [],
    image_index := [], show_images := true,
    chapter_map := [("ch1.html", 0)] }

/-- The image rewrite reads only the book, flag and image index, never the
chapter cache. -/
theorem embed_images_cache (st : EpubLoader) (l : List (Nat × String)) (s : String) :
    embed_images { st with chapter_cache := l } s = embed_images st s := rfl

/-- A state with an empty chapter cache is vacuously cache-consistent. -/
theorem cacheConsistent_of_nil (st : EpubLoader) (hc : st.chapter_cache = []) :
    cacheConsistent st := by
  intro i h hh
  rw [hc] at hh
  simp [List.lookup] at hh

/-- Toggling the visibility flag away and back restores the original flag
and leaves exactly the original state with a cleared cache. -/
theorem toggle_state (st : EpubLoader) :
    set_image_visibility (set_image_visibility st (!st.show_images)) st.show_images
      = { st with chapter_cache := [] } := by
  cases hb : st.show_images <;> simp [set_image_visibility, hb]

/-- Unfolding equation of `get_chapter_content` for an out-of-range index. -/
theorem gcc_out (st : EpubLoader) (i : Int)
    (h : ¬(0 ≤ i ∧ i < (st.chapters.length : Int))) :
    get_chapter_content st i = (st, none) := by
  simp [get_chapter_content, h]

/-- Unfolding equation of `get_chapter_content` for a cache hit. -/
theorem gcc_hit (st : EpubLoader) (i : Int) (h : String)
    (hr : 0 ≤ i ∧ i < (st.chapters.length : Int))
    (hl : List.lookup i.toNat st.chapter_cache = some h) :
    get_chapter_content st i = (st, some h) := by
  simp [get_chapter_content, hr, hl]

/-- In range, `get?` agrees with total indexing. -/
theorem chapters_get_some (st : EpubLoader) (i : Int) (ch : BookItem)
    (hr : 0 ≤ i ∧ i < (st.chapters.length : Int))
    (hget : st.chapters.get? i.toNat = some ch) :
    st.chapters[i.toNat] = ch := by
  have hlen : i.toNat < st.chapters.length := by omega
  rw [List.get?_eq_getElem?, List.getElem?_eq_getElem hlen] at hget
  exact (Option.some.injEq _ _).mp hget

/-- Unfolding equation of `get_chapter_content` when `get_content`
raises. -/
theorem gcc_nocontent (st : EpubLoader) (i : Int) (ch : BookItem)
    (hr : 0 ≤ i ∧ i < (st.chapters.length : Int))
    (hl : List.lookup i.toNat st.chapter_cache = none)
    (hget : st.chapters.get? i.toNat = some ch)
    (hcont : ch.content = none) :
    get_chapter_content st i = (st, none) := by
  have hch := chapters_get_some st i ch hr hget
  simp [get_chapter_content, hr, hl, hch, hcont]

/-- Unfolding equation of `get_chapter_content` on a decode failure. -/
theorem gcc_nodecode (st : EpubLoader) (i : Int) (ch : BookItem) (bytes : List Nat)
    (hr : 0 ≤ i ∧ i < (st.chapters.length : Int))
    (hl : List.lookup i.toNat st.chapter_cache = none)
    (hget : st.chapters.get? i.toNat = some ch)
    (hcont : ch.content = some bytes)
    (hdec : utf8Decode bytes = none) :
    get_chapter_content st i = (st, none) := by
  have hch := chapters_get_some st i ch hr hget
  simp [get_chapter_content, hr, hl, hch, hcont, hdec]

/-- Unfolding equation of `get_chapter_content` on a successful compute
and store. -/
theorem gcc_store (st : EpubLoader) (i : Int) (ch : BookItem)
    (bytes : List Nat) (chars : List Char)
    (hr : 0 ≤ i ∧ i < (st.chapters.length : Int))
    (hl : List.lookup i.toNat st.chapter_cache = none)
    (hget : st.chapters.get? i.toNat = some ch)
    (hcont : ch.content = some bytes)
    (hdec : utf8Decode bytes = some chars) :
    get_chapter_content st i =
      ({ st with chapter_cache :=
          (i.toNat, embed_images st (String.mk chars)) :: st.chapter_cache },
       some (embed_images st (String.mk chars))) := by
  have hch := chapters_get_some st i ch hr hget
  simp [get_chapter_content, hr, hl, hch, hcont, hdec]

/-- `get_chapter_content` preserves cache consistency: the only new entry
is the one it just computed under the current state. -/
theorem get_chapter_content_consistent (st : EpubLoader) (i : Int)
    (hcons : cacheConsistent st) :
    cacheConsistent (get_chapter_content st i).1 := by
  unfold get_chapter_content
  split
  case isFalse => exact hcons
  case isTrue hrange =>
    split
    case h_1 => exact hcons
    case h_2 hmiss =>
      split
      case h_1 => exact hcons
      case h_2 ch hget =>
        split
        case h_1 => exact hcons
        case h_2 bytes hbytes =>
          split
          case h_1 => exact hcons
          case h_2 chars hdec =>
            intro j s hlook
            simp only [List.lookup] at hlook
            by_cases hji : (j == i.toNat) = true
            · rw [hji] at hlook
              simp only [Option.some.injEq] at hlook
              refine ⟨ch, bytes, chars, ?_, hbytes, hdec, ?_⟩
              · have hje : j = i.toNat := by simpa using hji
                rw [hje]
                simpa using hget
              · rw [← hlook]
                exact (embed_images_cache st _ _).symm
            · rw [Bool.not_eq_true] at hji
              rw [hji] at hlook
              obtain ⟨c, bs, cs, h1, h2, h3, h4⟩ := hcons j s hlook
              exact ⟨c, bs, cs, h1, h2, h3,
                by rw [h4]; exact (embed_images_cache st _ _).symm⟩

/-- `set_image_visibility` preserves cache consistency. -/
theorem set_image_visibility_consistent (st : EpubLoader) (v : Bool)
    (hcons : cacheConsistent st) :
    cacheConsistent (set_image_visibility st v) := by
  unfold set_image_visibility
  split
  · exact cacheConsistent_of_nil _ rfl
  · exact hcons

/-- `load_file` preserves cache consistency. -/
theorem load_file_consistent (st : EpubLoader) (res : Option Book)
    (path msg : String) (hcons : cacheConsistent st) :
    cacheConsistent (load_file st res path msg).1 := by
  cases res with
  | none => exact hcons
  | some bk => exact cacheConsistent_of_nil _ rfl

/-- Running the prefetch tasks preserves cache consistency. -/
theorem preload_run_consistent (st : EpubLoader) (k : Int)
    (hcons : cacheConsistent st) :
    cacheConsistent (preload_run st k) := by
  unfold preload_run
  generalize preload_chapters st k = l
  induction l generalizing st with
  | nil => exact hcons
  | cons a t ih =>
    exact ih _ (get_chapter_content_consistent _ _ hcons)

/-- Two consecutive calls of `get_chapter_content` at the same index
return the same result. -/
theorem get_chapter_content_idem (st : EpubLoader) (i : Int) :
    (get_chapter_content (get_chapter_content st i).1 i).2
      = (get_chapter_content st i).2 := by
  by_cases hrange : 0 ≤ i ∧ i < (st.chapters.length : Int)
  · cases hl : List.lookup i.toNat st.chapter_cache with
    | some h => rw [gcc_hit st i h hrange hl]; rw [gcc_hit st i h hrange hl]
    | none =>
      cases hget : st.chapters.get? i.toNat with
      | none =>
        exfalso
        have := List.get?_eq_none.mp hget
        omega
      | some ch =>
        cases hcont : ch.content with
        | none =>
          rw [gcc_nocontent st i ch hrange hl hget hcont,
            gcc_nocontent st i ch hrange hl hget hcont]
        | some bytes =>
          cases hdec : utf8Decode bytes with
          | none =>
            rw [gcc_nodecode st i ch bytes hrange hl hget hcont hdec,
              gcc_nodecode st i ch bytes hrange hl hget hcont hdec]
          | some chars =>
            rw [gcc_store st i ch bytes chars hrange hl hget hcont hdec]
            have hl2 : List.lookup i.toNat
                ((i.toNat, embed_images st (String.mk chars)) :: st.chapter_cache)
                = some (embed_images st (String.mk chars)) := by
              simp [List.lookup]
            have h2 := gcc_hit
              { st with chapter_cache :=
                  (i.toNat, embed_images st (String.mk chars)) :: st.chapter_cache }
              i (embed_images st (String.mk chars)) hrange hl2
            dsimp only
            rw [h2]
  · rw [gcc_out st i hrange, gcc_out st i hrange]

/-- On a consistent state, clearing the cache does not change any
`get_chapter_content` result. -/
theorem gcc_nocache (st : EpubLoader) (i : Int) (hcons : cacheConsistent st) :
    (get_chapter_content { st with chapter_cache := [] } i).2
      = (get_chapter_content st i).2 := by
  by_cases hrange : 0 ≤ i ∧ i < (st.chapters.length : Int)
  · have hl0 : List.lookup i.toNat ([] : List (Nat × String)) = none := rfl
    cases hl : List.lookup i.toNat st.chapter_cache with
    | some h =>
      obtain ⟨c, bytes, chars, hget, hcont, hdec, hh⟩ := hcons i.toNat h hl
      rw [gcc_hit st i h hrange hl]
      rw [gcc_store { st with chapter_cache := [] } i c bytes chars hrange hl0
        hget hcont hdec]
      simp [hh, embed_images_cache]
    | none =>
      cases hget : st.chapters.get? i.toNat with
      | none =>
        exfalso
        have := List.get?_eq_none.mp hget
        omega
      | some ch =>
        cases hcont : ch.content with
        | none =>
          rw [gcc_nocontent st i ch hrange hl hget hcont,
            gcc_nocontent { st with chapter_cache := [] } i ch hrange hl0 hget hcont]
        | some bytes =>
          cases hdec : utf8Decode bytes with
          | none =>
            rw [gcc_nodecode st i ch bytes hrange hl hget hcont hdec,
              gcc_nodecode { st with chapter_cache := [] } i ch bytes hrange hl0
                hget hcont hdec]
          | some chars =>
            rw [gcc_store st i ch bytes chars hrange hl hget hcont hdec,
              gcc_store { st with chapter_cache := [] } i ch bytes chars hrange hl0
                hget hcont hdec]
            simp [embed_images_cache]
  · rw [gcc_out st i hrange, gcc_out { st with chapter_cache := [] } i hrange]

/-- `imgSubAux` maps the empty list to the empty list at any fuel. -/
theorem imgSubAux_nil (f : List Char → List Char → List Char) (fuel : Nat) :
    imgSubAux f fuel [] = [] := by
  cases fuel <;> rfl

/-- A successful image-tag match consumes at least one character. -/
theorem matchImgTag_after_lt (cs t s a : List Char)
    (h : matchImgTag cs = some (t, s, a)) : a.length < cs.length := by
  match cs with
  | [] => simp [matchImgTag] at h
  | [c1] => simp [matchImgTag] at h
  | [c1, c2] => simp [matchImgTag] at h
  | [c1, c2, c3] => simp [matchImgTag] at h
  | c1 :: c2 :: c3 :: c4 :: rest0 =>
    simp only [matchImgTag] at h
    split at h
    case isFalse => simp at h
    case isTrue hg =>
      cases hdrop : rest0.drop (rest0.takeWhile (fun ch => !(ch == '>'))).length with
      | nil => rw [hdrop] at h; simp at h
      | cons x after =>
        rw [hdrop] at h
        cases hfind : findSrcDown (rest0.takeWhile (fun ch => !(ch == '>')))
            (rest0.takeWhile (fun ch => !(ch == '>'))).length with
        | none => rw [hfind] at h; simp at h
        | some src =>
          rw [hfind] at h
          simp only [Option.some.injEq, Prod.mk.injEq] at h
          obtain ⟨-, -, ha⟩ := h
          have hlen : (rest0.drop
              (rest0.takeWhile (fun ch => !(ch == '>'))).length).length
              = after.length + 1 := by rw [hdrop]; simp
          rw [List.length_drop] at hlen
          subst ha
          simp only [List.length_cons]
          omega

/-- The result of `imgSubAux` does not depend on the fuel, as long as the
fuel covers the input length. -/
theorem imgSubAux_fuel (f : List Char → List Char → List Char) :
    ∀ (f1 : Nat) (cs : List Char) (f2 : Nat), cs.length ≤ f1 → cs.length ≤ f2 →
      imgSubAux f f1 cs = imgSubAux f f2 cs := by
  intro f1
  induction f1 with
  | zero =>
    intro cs f2 h1 _
    have : cs = [] := List.eq_nil_of_length_eq_zero (Nat.le_zero.mp h1)
    subst this
    rw [imgSubAux_nil, imgSubAux_nil]
  | succ n ih =>
    intro cs f2 h1 h2
    cases cs with
    | nil => rw [imgSubAux_nil, imgSubAux_nil]
    | cons c r =>
      simp only [List.length_cons] at h1 h2
      cases f2 with
      | zero => omega
      | succ m =>
        simp only [imgSubAux]
        cases hm : matchImgTag (c :: r) with
        | some v =>
          obtain ⟨t, s, after⟩ := v
          have hlt := matchImgTag_after_lt (c :: r) t s after hm
          simp only [List.length_cons] at hlt
          dsimp only
          congr 1
          exact ih after m (by omega) (by omega)
        | none =>
          dsimp only
          congr 1
          exact ih r m (by omega) (by omega)

/-- At a match, the scan emits the per-tag replacement and continues with
the remainder: one tag's outcome never affects the rest of the scan. -/
theorem imgSub_match (f : List Char → List Char → List Char)
    (cs t s after : List Char) (h : matchImgTag cs = some (t, s, after)) :
    imgSub f cs = f t s ++ imgSub f after := by
  have hlt := matchImgTag_after_lt cs t s after h
  cases cs with
  | nil => simp [matchImgTag] at h
  | cons c r =>
    show imgSubAux f (c :: r).length (c :: r) = _
    simp only [List.length_cons, imgSubAux, h]
    congr 1
    exact imgSubAux_fuel f r.length after
      after.length (by simp only [List.length_cons] at hlt; omega) (le_refl _)

/-- Without a match at the head, the scan advances one character. -/
theorem imgSub_nomatch (f : List Char → List Char → List Char)
    (c : Char) (r : List Char) (h : matchImgTag (c :: r) = none) :
    imgSub f (c :: r) = c :: imgSub f r := by
  show imgSubAux f (c :: r).length (c :: r) = _
  simp only [List.length_cons, imgSubAux, h]
  rfl

/-- `unquoteAux` with zero fuel is the identity. -/
theorem unquoteAux_zero (l : List Char) : unquoteAux 0 l = l := by
  cases l <;> rfl

/-- Percent-decoding a string without a percent sign is the identity. -/
theorem unquoteAux_no_percent :
    ∀ (fuel : Nat) (l : List Char), (∀ c ∈ l, c ≠ '%') → unquoteAux fuel l = l := by
  intro fuel
  induction fuel with
  | zero => intro l _; exact unquoteAux_zero l
  | succ n ih =>
    intro l hl
    cases l with
    | nil => rfl
    | cons c rest =>
      have hc : (c == '%') = false := by
        simp only [beq_eq_false_iff_ne]
        exact hl c (List.mem_cons_self c rest)
      simp only [unquoteAux, hc, Bool.false_eq_true, if_false]
      rw [ih rest (fun d hd => hl d (List.mem_cons_of_mem c hd))]

/-- Percent-decoding is the identity on percent-free strings. -/
theorem pyUnquote_no_percent (s : String)
    (h : s.data.all (fun c => c != '%') = true) : pyUnquote s = s := by
  have h2 : ∀ c ∈ s.data, c ≠ '%' := by
    intro c hc
    have := List.all_eq_true.mp h c hc
    simpa using this
  show String.mk (unquoteAux s.data.length s.data) = s
  rw [unquoteAux_no_percent s.data.length s.data h2]

/-- Membership in the model of Python `range`. -/
theorem mem_pyRange (a b i : Int) : i ∈ pyRange a b ↔ a ≤ i ∧ i < b := by
  unfold pyRange
  constructor
  · intro hi
    obtain ⟨n, hn, he⟩ := List.mem_map.mp hi
    have hlt := List.mem_range.mp hn
    omega
  · intro h
    exact List.mem_map.mpr ⟨(i - a).toNat, List.mem_range.mpr (by omega), by omega⟩

/-- Claim C1, amended: for every img tag matched by the case-insensitive
source-attribute pattern, `_replace_image` produces: with the visibility
flag false, the whole tag replaced by the placeholder block naming the
percent-decoded basename of the referenced path (no base64 payload); with
the flag true and the captured reference resolving in the image index (and
its payload readable), the tag with every case-insensitive occurrence of
`src=`-quoted-value - including occurrences where `src=` ends a longer
attribute name such as `data-src=` - replaced by the `data:` URI whose
MIME type comes from the fixed extension table (defaulting to
`image/jpeg`); with the flag true and resolution failing, or the payload
read raising, the original tag unchanged. A match's outcome never aborts
or alters the scan of the remaining text: the scan emits the per-tag
result and continues independently after the tag. -/
theorem claim_C1 (st : EpubLoader) (tag src : String) (item : BookItem)
    (data : List Nat) (e m : String) (f : List Char → List Char → List Char)
    (cs t s after r : List Char) (c : Char) :
    (st.show_images = false →
      replace_image st tag src = placeholderDiv (pyBasename (pyUnquote src))) ∧
    (st.show_images = true → resolveImage st.image_index src = some item →
      item.content = some data →
      replace_image st tag src
        = String.mk (srcAttrSub (dataUriRepl item data).data tag.data)) ∧
    (st.show_images = true → resolveImage st.image_index src = none →
      replace_image st tag src = tag) ∧
    (st.show_images = true → resolveImage st.image_index src = some item →
      item.content = none → replace_image st tag src = tag) ∧
    (List.lookup e MIME_TYPES = some m → mimeOf e = m) ∧
    (List.lookup e MIME_TYPES = none → mimeOf e = "image/jpeg") ∧
    (matchImgTag cs = some (t, s, after) → imgSub f cs = f t s ++ imgSub f after) ∧
    (matchImgTag (c :: r) = none → imgSub f (c :: r) = c :: imgSub f r) := by
  refine ⟨?_, ?_, ?_, ?_, ?_, ?_, ?_, ?_⟩
  · intro h
    simp [replace_image, h]
  · intro h hres hcont
    simp [replace_image, h, hres, hcont]
  · intro h hres
    simp [replace_image, h, hres]
  · intro h hres hcont
    simp [replace_image, h, hres, hcont]
  · intro h
    simp [mimeOf, h]
  · intro h
    simp [mimeOf, h]
  · exact imgSub_match f cs t s after
  · exact imgSub_nomatch f c r

/-- Witness for claim C1: on the freshly initialised loader a reference
that resolves to nothing leaves the tag unchanged. -/
theorem claim_C1_witness :
    EpubLoader.init.show_images = true ∧
    resolveImage EpubLoader.init.image_index "missing.png" = none ∧
    replace_image EpubLoader.init "<img src=\"missing.png\">" "missing.png"
      = "<img src=\"missing.png\">" :=
  ⟨rfl, by decide,
   (claim_C1 EpubLoader.init "<img src=\"missing.png\">" "missing.png"
      itemC1 [] "" "" (fun a _ => a) [] [] [] [] [] 'a').2.2.1 rfl (by decide)⟩

/-- Counterexample to claim C1 as stated: on a tag carrying both a
`data-src` and a `src` attribute, the inner substitution rewrites the
`data-src` value as well, so more than "only its src attribute value" is
replaced. -/
theorem claim_C1_counterexample :
    replace_image stC1 "<img data-src=\"b.png\" src=\"images/pic.png\">"
        "images/pic.png"
      = "<img data-src=\"data:image/png;base64,AQID\" src=\"data:image/png;base64,AQID\">"
    ∧ replace_image stC1 "<img data-src=\"b.png\" src=\"images/pic.png\">"
        "images/pic.png"
      ≠ "<img data-src=\"b.png\" src=\"data:image/png;base64,AQID\">" := by
  constructor
  · decide
  · decide

/-- Claim C2: `set_image_visibility` updates the flag and clears the
whole cache exactly when the value changes, is the identity otherwise and
never eagerly recomputes; and every operation of the pipeline - archive
load, visibility change, content fetch, prefetch - preserves the
invariant that each cached entry was computed under the pipeline's
current state. -/
theorem claim_C2 (st : EpubLoader) (v : Bool) (i k : Int)
    (res : Option Book) (path msg : String) :
    (st.show_images ≠ v →
      set_image_visibility st v = { st with show_images := v, chapter_cache := [] }) ∧
    (st.show_images = v → set_image_visibility st v = st) ∧
    (cacheConsistent st → cacheConsistent (load_file st res path msg).1) ∧
    (cacheConsistent st → cacheConsistent (set_image_visibility st v)) ∧
    (cacheConsistent st → cacheConsistent (get_chapter_content st i).1) ∧
    (cacheConsistent st → cacheConsistent (preload_run st k)) := by
  refine ⟨?_, ?_, ?_, ?_, ?_, ?_⟩
  · intro h
    unfold set_image_visibility
    rw [if_pos (bne_iff_ne.mpr h)]
  · intro h
    unfold set_image_visibility
    rw [if_neg (by simp [h])]
  · exact load_file_consistent st res path msg
  · exact set_image_visibility_consistent st v
  · exact get_chapter_content_consistent st i
  · exact preload_run_consistent st k

/-- Witness for claim C2: hiding images on the fresh loader flips the
flag and clears the cache. -/
theorem claim_C2_witness :
    EpubLoader.init.show_images ≠ false ∧
    set_image_visibility EpubLoader.init false
      = { EpubLoader.init with show_images := false, chapter_cache := [] } :=
  ⟨by decide, (claim_C2 EpubLoader.init false 0 0 none "" "").1 (by decide)⟩

/-- Claim C3: every index outside the valid range (in particular every
index when nothing is loaded) yields `None` with the state untouched, and
a chapter whose raw content fails to decode yields `None` for that call
with the state - hence the cache and every other chapter's result -
untouched. -/
theorem claim_C3 (st : EpubLoader) (idx : Int) (ch : BookItem) (bytes : List Nat) :
    (¬(0 ≤ idx ∧ idx < (chapter_count st : Int)) →
      get_chapter_content st idx = (st, none)) ∧
    (st.chapters = [] → get_chapter_content st idx = (st, none)) ∧
    ((0 ≤ idx ∧ idx < (chapter_count st : Int)) →
      List.lookup idx.toNat st.chapter_cache = none →
      st.chapters.get? idx.toNat = some ch →
      ch.content = some bytes →
      utf8Decode bytes = none →
      get_chapter_content st idx = (st, none)) := by
  refine ⟨?_, ?_, ?_⟩
  · intro h
    exact gcc_out st idx h
  · intro h
    refine gcc_out st idx ?_
    rw [h]
    simp only [List.length_nil]
    omega
  · intro h1 h2 h3 h4 h5
    exact gcc_nodecode st idx ch bytes h1 h2 h3 h4 h5

/-- Witness for claim C3: a loader whose single chapter holds the invalid
UTF-8 byte 0xFF returns `None` for it and keeps its state. -/
theorem claim_C3_witness :
    (0 ≤ (0 : Int) ∧ (0 : Int) < (chapter_count stW3 : Int)) ∧
    List.lookup (0 : Int).toNat stW3.chapter_cache = none ∧
    stW3.chapters.get? (0 : Int).toNat = some chW3 ∧
    chW3.content = some [0xFF] ∧
    utf8Decode [0xFF] = none ∧
    get_chapter_content stW3 0 = (stW3, none) :=
  ⟨by decide, rfl, rfl, rfl, rfl,
   (claim_C3 stW3 0 chW3 [0xFF]).2.2 (by decide) rfl rfl rfl rfl⟩

/-- Claim C4: image-reference resolution percent-decodes, looks the path
up verbatim, falls back to the text after the last slash, returns
`NotFound` when both keys miss (it is a total function, so it never
throws), and consequently a percent-encoded reference and the plain
reference it decodes to resolve to the same resource and produce the same
rewritten tag. -/
theorem claim_C4 (st : EpubLoader) (src plain tag : String) (r : BookItem) :
    (List.lookup (pyUnquote src) st.image_index = some r →
      resolveImage st.image_index src = some r) ∧
    (List.lookup (pyUnquote src) st.image_index = none →
      resolveImage st.image_index src
        = List.lookup (splitLastSeg (pyUnquote src)) st.image_index) ∧
    (List.lookup (pyUnquote src) st.image_index = none →
      List.lookup (splitLastSeg (pyUnquote src)) st.image_index = none →
      resolveImage st.image_index src = none) ∧
    (plain.data.all (fun c => c != '%') = true → pyUnquote src = plain →
      resolveImage st.image_index src = resolveImage st.image_index plain ∧
      replace_image st tag src = replace_image st tag plain) := by
  refine ⟨?_, ?_, ?_, ?_⟩
  · intro h
    simp [resolveImage, h]
  · intro h
    simp [resolveImage, h]
  · intro h1 h2
    simp [resolveImage, h1, h2]
  · intro hall heq
    have hplain := pyUnquote_no_percent plain hall
    have hres : resolveImage st.image_index src
        = resolveImage st.image_index plain := by
      unfold resolveImage
      rw [heq, hplain]
    refine ⟨hres, ?_⟩
    unfold replace_image
    rw [heq, hplain, hres]

/-- Witness for claim C4: the encoded reference `a%20b.png` and the plain
reference `a b.png` resolve identically and rewrite identically on a
loader indexing `images/a b.png`. -/
theorem claim_C4_witness :
    ("a b.png".data.all (fun c => c != '%') = true) ∧
    pyUnquote "a%20b.png" = "a b.png" ∧
    resolveImage stW4.image_index "a%20b.png"
      = resolveImage stW4.image_index "a b.png" ∧
    replace_image stW4 "<img src=\"a%20b.png\">" "a%20b.png"
      = replace_image stW4 "<img src=\"a%20b.png\">" "a b.png" :=
  ⟨by decide, by decide,
   ((claim_C4 stW4 "a%20b.png" "a b.png" "<img src=\"a%20b.png\">" itemW4).2.2.2
     (by decide) (by decide)).1,
   ((claim_C4 stW4 "a%20b.png" "a b.png" "<img src=\"a%20b.png\">" itemW4).2.2.2
     (by decide) (by decide)).2⟩

/-- Claim C5: on a cache-consistent state, two consecutive
`get_chapter_content` calls at the same index return identical results,
and toggling the visibility flag to the opposite value and back restores
bit-identical output for every index. -/
theorem claim_C5 (st : EpubLoader) (i : Int) (hcons : cacheConsistent st) :
    (get_chapter_content (get_chapter_content st i).1 i).2
        = (get_chapter_content st i).2 ∧
    (get_chapter_content
        (set_image_visibility (set_image_visibility st (!st.show_images))
          st.show_images) i).2
      = (get_chapter_content st i).2 := by
  refine ⟨get_chapter_content_idem st i, ?_⟩
  rw [toggle_state st]
  exact gcc_nocache st i hcons

/-- Witness for claim C5 on a concrete one-chapter loader with an empty
(hence consistent) cache. -/
theorem claim_C5_witness :
    (get_chapter_content (get_chapter_content stW5 0).1 0).2
        = (get_chapter_content stW5 0).2 ∧
    (get_chapter_content
        (set_image_visibility (set_image_visibility stW5 (!stW5.show_images))
          stW5.show_images) 0).2
      = (get_chapter_content stW5 0).2 :=
  claim_C5 stW5 0 (cacheConsistent_of_nil stW5 rfl)

/-- Claim C6: `preload_chapters` submits a `get_chapter_content` task for
exactly the indices of the inclusive window around the current index that
are in range and not already cached; in particular at index 0 it never
touches index -1. -/
theorem claim_C6 (st : EpubLoader) (k i : Int) :
    (i ∈ preload_chapters st k ↔
      (k - 1 ≤ i ∧ i ≤ k + 1 ∧ 0 ≤ i ∧ i < (chapter_count st : Int) ∧
        List.lookup i.toNat st.chapter_cache = none)) ∧
    (-1 : Int) ∉ preload_chapters st 0 ∧
    preload_run st k = (preload_chapters st k).foldl
      (fun s j => (get_chapter_content s j).1) st := by
  have hmem : ∀ (k2 i2 : Int), i2 ∈ preload_chapters st k2 ↔
      (k2 - 1 ≤ i2 ∧ i2 ≤ k2 + 1 ∧ 0 ≤ i2 ∧ i2 < (st.chapters.length : Int) ∧
        List.lookup i2.toNat st.chapter_cache = none) := by
    intro k2 i2
    unfold preload_chapters
    rw [List.mem_filter, mem_pyRange, Option.isNone_iff_eq_none]
    constructor
    · rintro ⟨⟨h1, h2⟩, h3⟩
      exact ⟨by omega, by omega, by omega, by omega, h3⟩
    · rintro ⟨h1, h2, h3, h4, h5⟩
      exact ⟨⟨by omega, by omega⟩, h5⟩
  refine ⟨hmem k i, ?_, rfl⟩
  intro hbad
  have := (hmem 0 (-1)).mp hbad
  omega

/-- Claim C7, amended: when the navigation walk raises, `get_flat_toc`
returns the entries collected before the error followed by exactly
`chapter_count` synthetic entries, the one at position i having level 0,
`chapter_idx` i and a generic title containing the 1-based position i+1
and the chapter's filename; a walk that raises before collecting anything
thus yields exactly the synthetic entries. An archive with empty
navigation metadata yields the empty TOC, not the fallback. -/
theorem claim_C7 (st : EpubLoader) (bk : Book) (hb : st.book = some bk) :
    (bk.toc = [] → get_flat_toc st = []) ∧
    ((walkItems st bk.toc 0).2 = true →
      get_flat_toc st = (walkItems st bk.toc 0).1 ++ syntheticToc st) ∧
    (syntheticToc st).length = chapter_count st ∧
    (∀ i c, st.chapters.get? i = some c →
      (syntheticToc st).get? i = some
        { title := "章节 " ++ toString (i + 1) ++ " (" ++ pyBasename c.name ++ ")",
          level := 0, href := some c.name, chapter_idx := some i }) := by
  refine ⟨?_, ?_, ?_, ?_⟩
  · intro htoc
    unfold get_flat_toc
    rw [hb]
    dsimp only
    rw [htoc]
    simp [walkItems]
  · intro hr
    unfold get_flat_toc
    rw [hb]
    dsimp only
    cases hw : walkItems st bk.toc 0 with
    | mk entries raised =>
      rw [hw] at hr
      simp only at hr
      dsimp only
      rw [hr]
      simp
  · simp [syntheticToc, chapter_count]
  · intro i c hget
    have hlen : i < st.chapters.length := by
      by_contra hc
      rw [List.get?_eq_none.mpr (by omega)] at hget
      exact Option.noConfusion hget
    unfold syntheticToc chapter_count
    rw [List.get?_map, List.get?_range hlen]
    have hget2 : st.chapters[i]? = some c := by
      rw [← List.get?_eq_getElem?]
      exact hget
    simp [hget2]

/-- Witness for claim C7: a loader whose navigation raises immediately
falls back to the synthetic TOC appended to the (empty) collected
entries. -/
theorem claim_C7_witness :
    stW7.book = some bkW7 ∧ (walkItems stW7 bkW7.toc 0).2 = true ∧
    get_flat_toc stW7 = (walkItems stW7 bkW7.toc 0).1 ++ syntheticToc stW7 :=
  ⟨rfl, by simp [bkW7, walkItems],
   (claim_C7 stW7 bkW7 rfl).2.1 (by simp [bkW7, walkItems])⟩

/-- Counterexample to claim C7 as stated: a loaded archive with one
chapter and empty navigation metadata yields an empty flat TOC, not
`chapter_count` entries. -/
theorem claim_C7_counterexample :
    get_flat_toc stW5 = [] ∧ chapter_count stW5 = 1 ∧
    (get_flat_toc stW5).length ≠ chapter_count stW5 := by
  have h : get_flat_toc stW5 = [] := by
    simp [get_flat_toc, stW5, bkW5, walkItems]
  refine ⟨h, rfl, ?_⟩
  rw [h]
  decide

/-- Claim C8, amended: `_find_chapter_index` maps an empty href to null;
otherwise it takes the basename of the percent-decoded href, returns its
exact binding in the chapter map when present, else - only when the name
contains a question mark - retries the exact lookup with the part before
the question mark, and else falls back to the first chapter in document
order whose raw archive path contains the UNstripped decoded basename as
a substring (null when no step matches). -/
theorem claim_C8 (st : EpubLoader) (href : String) (i : Nat) :
    (href = "" → find_chapter_index st href = none) ∧
    (href ≠ "" →
      List.lookup (pyBasename (pyUnquote href)) st.chapter_map = some i →
      find_chapter_index st href = some i) ∧
    (href ≠ "" →
      List.lookup (pyBasename (pyUnquote href)) st.chapter_map = none →
      (pyBasename (pyUnquote href)).data.contains '?' = true →
      List.lookup (String.mk ((splitChar '?' (pyBasename (pyUnquote href)).data).headD
          (pyBasename (pyUnquote href)).data)) st.chapter_map = some i →
      find_chapter_index st href = some i) ∧
    (href ≠ "" →
      List.lookup (pyBasename (pyUnquote href)) st.chapter_map = none →
      ((pyBasename (pyUnquote href)).data.contains '?' = false ∨
        List.lookup (String.mk ((splitChar '?' (pyBasename (pyUnquote href)).data).headD
            (pyBasename (pyUnquote href)).data)) st.chapter_map = none) →
      find_chapter_index st href = st.chapters.findIdx?
        (fun ch => containsSub (pyBasename (pyUnquote href)).data ch.name.data)) := by
  refine ⟨?_, ?_, ?_, ?_⟩
  · intro h
    simp [find_chapter_index, h]
  · intro h1 h2
    simp [find_chapter_index, beq_eq_false_iff_ne.mpr h1, h2]
  · intro h1 h2 h3 h4
    have hmem : '?' ∈ (pyBasename (pyUnquote href)).data := by simpa using h3
    rw [show String.mk ((splitChar '?' (pyBasename (pyUnquote href)).data).headD
        (pyBasename (pyUnquote href)).data)
      = String.mk ((splitChar '?' (pyBasename (pyUnquote href)).data).head?.getD
        (pyBasename (pyUnquote href)).data) from by rw [List.headD_eq_head?]] at h4
    simp [find_chapter_index, beq_eq_false_iff_ne.mpr h1, h2, hmem, h4]
  · intro h1 h2 h3
    rcases h3 with h3 | h3
    · have hnmem : ¬ ('?' ∈ (pyBasename (pyUnquote href)).data) := by simpa using h3
      simp [find_chapter_index, beq_eq_false_iff_ne.mpr h1, h2, hnmem]
    · by_cases hq : (pyBasename (pyUnquote href)).data.contains '?' = true
      · have hmem : '?' ∈ (pyBasename (pyUnquote href)).data := by simpa using hq
        rw [show String.mk ((splitChar '?' (pyBasename (pyUnquote href)).data).headD
            (pyBasename (pyUnquote href)).data)
          = String.mk ((splitChar '?' (pyBasename (pyUnquote href)).data).head?.getD
            (pyBasename (pyUnquote href)).data) from by rw [List.headD_eq_head?]] at h3
        simp [find_chapter_index, beq_eq_false_iff_ne.mpr h1, h2, hmem, h3]
      · have hq2 : (pyBasename (pyUnquote href)).data.contains '?' = false := by
          simpa using hq
        have hnmem : ¬ ('?' ∈ (pyBasename (pyUnquote href)).data) := by
          simpa using hq2
        simp [find_chapter_index, beq_eq_false_iff_ne.mpr h1, h2, hnmem]

/-- Witness for claim C8: an exact basename match resolves through the
chapter map. -/
theorem claim_C8_witness :
    ("ch1.html" : String) ≠ "" ∧
    List.lookup (pyBasename (pyUnquote "ch1.html")) stL8.chapter_map = some 0 ∧
    find_chapter_index stL8 "ch1.html" = some 0 :=
  ⟨by decide, by decide,
   (claim_C8 stL8 "ch1.html" 0).2.1 (by decide) (by decide)⟩

/-- Counterexample to claim C8 as stated: for the href `ch1.htm?x`
against a chapter at `text/ch1.html`, the code's substring fallback uses
the unstripped name `ch1.htm?x` and finds nothing, while the claimed
procedure (strip the query first, then substring-match) would return
chapter 0. -/
theorem claim_C8_counterexample :
    find_chapter_index stL8 "ch1.htm?x" = none ∧
    find_chapter_index_claimed stL8 "ch1.htm?x" = some 0 := by
  constructor
  · decide
  · decide

/-- Claim C9: archive loading is atomic over the model's state - on a
read failure the returned state is exactly the prior state (prior
archive, chapters, cache and image index all authoritative), and on
success every field is rebuilt from the new book alone (the cache empty),
only the visibility flag carrying over. -/
theorem claim_C9 (st : EpubLoader) (path msg : String) (bk : Book) :
    load_file st none path msg = (st, false, msg) ∧
    load_file st (some bk) path msg =
      ({ book := some bk,
         chapters := bk.items.filter (fun it => it.itemType == ItemType.document),
         chapter_cache := [],
         image_index := build_image_index bk,
         show_images := st.show_images,
         chapter_map := (bk.items.filter
             (fun it => it.itemType == ItemType.document)).enum.foldl
           (fun m p => (pyBasename p.2.name, p.1) :: m) [] },
       true,
       match bk.titleMeta with
       | [] => pyBasename path
       | t :: _ => t) :=
  ⟨rfl, rfl⟩
